import Mathlib

/-!
Verification of the low-level SMF (Standard MIDI File) reader in `src/read.rs`
of the `midi` crate. Byte buffers are modelled as `List Nat` (each element a
`u8` value), the moving `&mut &[u8]` cursor as explicit state passing: every
reader takes the remaining bytes and returns either a value together with the
remaining bytes, an error together with the bytes remaining at the failure
point, or the outcome of reaching the `unimplemented!()` branch (a panic).
-/

set_option maxRecDepth 4096

namespace Midi

/-- Error kinds of the crate: `Fatal` (buffer exhausted) and `Invalid`
(format rule violated). -/
inductive ErrorKind where
  | Fatal
  | Invalid
deriving DecidableEq

/-- `Error { context, kind }` as carried by the high-level readers. -/
structure Error where
  context : String
  kind : ErrorKind
deriving DecidableEq

/-- SMF format field of the header chunk. -/
inductive Format where
  | Single
  | MultiTrack
  | MultiSequence
deriving DecidableEq

/-- `Action` payload of the LocalControl channel-mode message. -/
inductive Action where
  | Disconnect
  | Reconnect
deriving DecidableEq

/-- Borrowed text payload (`Text::new` wraps a byte slice). -/
structure Text where
  data : List Nat
deriving DecidableEq

/-- Meta events (type byte `0xFF`), one constructor per dispatch arm of
`read_meta_event`. -/
inductive MetaEvent where
  | SequenceNumber (number : Nat)
  | Text (t : Text)
  | CopyrightNotice (t : Text)
  | Name (t : Text)
  | InstrumentName (t : Text)
  | Lyric (t : Text)
  | Marker (t : Text)
  | CuePoint (t : Text)
  | ChannelPrefixEv (channel : Nat)
  | EndOfTrack
  | SetTempo (tempo : Nat)
  | SMTPEOffset (hh mm ss fr ff : Nat)
  | TimeSignature (nn dd cc bb : Nat)
  | KeySignature (sf mi : Nat)
  | SequencerSpecific (data : List Nat)
  | Unknown (meta_type : Nat) (data : List Nat)
deriving DecidableEq

/-- MIDI channel-voice / channel-mode message kinds of `read_midi_event`. -/
inductive MidiEventKind where
  | NoteOff (key velocity : Nat)
  | NoteOn (key velocity : Nat)
  | PolyphonicKeyPressure (key velocity : Nat)
  | ControllerChange (number value : Nat)
  | AllSoundOff
  | ResetAllControllers
  | LocalControl (action : Action)
  | AllNotesOff
  | OmniModeOff
  | OmniModeOn
  | MonoModeOn (n : Nat)
  | PolyModeOn
  | ProgramChange (program : Nat)
  | ChannelKeyPressure (pressure : Nat)
  | PitchBend (lsb msb : Nat)
deriving DecidableEq

/-- A MIDI event: channel (low nibble of the status byte) plus kind. -/
structure MidiEvent where
  channel : Nat
  kind : MidiEventKind
deriving DecidableEq

/-- Sysex events `F0`/`F7`, each with a VLQ-length-prefixed payload. -/
inductive SysexEvent where
  | F0 (data : List Nat)
  | F7 (data : List Nat)
deriving DecidableEq

/-- The three event categories. -/
inductive EventKind where
  | Midi (e : MidiEvent)
  | Meta (e : MetaEvent)
  | Sysex (e : SysexEvent)
deriving DecidableEq

/-- A track event: delta time plus kind. -/
structure Event where
  kind : EventKind
  time : Nat
deriving DecidableEq

/-- `MThd` payload: format, declared track count, division. -/
structure HeaderChunk where
  format : Format
  tracks : Nat
  division : Nat
deriving DecidableEq

/-- Outcome of running a reader on a cursor: success with remaining bytes,
error (kind `ε`) with the bytes remaining at the failure point, or a panic
(the `unimplemented!()` branch). -/
inductive PR (ε α : Type) where
  | ok (a : α) (rest : List Nat)
  | err (e : ε) (rest : List Nat)
  | panicked
deriving DecidableEq

/-- A reader: a function from the remaining input to an outcome. -/
def Rd (ε α : Type) : Type := List Nat → PR ε α

/-- Reader returning a value without consuming input. -/
def ppure (a : α) : Rd ε α := fun s => .ok a s

/-- Reader failing without consuming input (an early `return Err(..)`). -/
def perr (e : ε) : Rd ε α := fun s => .err e s

/-- Reader that panics (`unimplemented!()`). -/
def ppanic : Rd ε α := fun _ => .panicked

/-- Sequencing of readers; mirrors the `?` operator threading the `&mut`
cursor: errors and panics propagate with the cursor wherever it stopped. -/
def pbind (p : Rd ε α) (f : α → Rd ε β) : Rd ε β := fun s =>
  match p s with
  | .ok a s' => f a s'
  | .err e s' => .err e s'
  | .panicked => .panicked

/-- `map_err(context("..."))`: attach a context string to the error kind. -/
def withCtx (c : String) (p : Rd ErrorKind α) : Rd Error α := fun s =>
  match p s with
  | .ok a s' => .ok a s'
  | .err k s' => .err ⟨c, k⟩ s'
  | .panicked => .panicked

/-- `read_bytes`: split off the next `len` bytes, `Fatal` if fewer remain. -/
def read_bytes (len : Nat) : Rd ErrorKind (List Nat) := fun s =>
  if s.length < len then .err .Fatal s else .ok (s.take len) (s.drop len)

/-- Big-endian recombination of a byte list (`uN::from_be_bytes`). -/
def beBytes (bs : List Nat) : Nat := bs.foldl (fun a b => a * 256 + b) 0

/-- `read_u8`: one byte. -/
def read_u8 : Rd ErrorKind Nat :=
  pbind (read_bytes 1) (fun bs => ppure (bs.headD 0))

/-- `read_u7`: one byte that must have its high bit clear. -/
def read_u7 : Rd ErrorKind Nat :=
  pbind read_u8 (fun byte => if byte ≤ 0x7f then ppure byte else perr .Invalid)

/-- `read_u16`: two bytes, big endian. -/
def read_u16 : Rd ErrorKind Nat :=
  pbind (read_bytes 2) (fun bs => ppure (beBytes bs))

/-- `read_u24`: three bytes, big endian. -/
def read_u24 : Rd ErrorKind Nat :=
  pbind (read_bytes 3) (fun bs => ppure (beBytes bs))

/-- `read_u32`: four bytes, big endian. -/
def read_u32 : Rd ErrorKind Nat :=
  pbind (read_bytes 4) (fun bs => ppure (beBytes bs))

/-- `read_format`: u16 mapped to the `Format` enum, else `Invalid`. -/
def read_format : Rd ErrorKind Format :=
  pbind read_u16 (fun value =>
    match value with
    | 0 => ppure .Single
    | 1 => ppure .MultiTrack
    | 2 => ppure .MultiSequence
    | _ => perr .Invalid)

/-- `expect_bytes`: read and compare against a literal, `Invalid` on
mismatch. -/
def expect_bytes (expected : List Nat) : Rd ErrorKind Unit :=
  pbind (read_bytes expected.length) (fun bs =>
    if bs ≠ expected then perr .Invalid else ppure ())

/-- `expect_u8`: read a byte and compare, `Invalid` on mismatch. -/
def expect_u8 (expected : Nat) : Rd ErrorKind Unit :=
  pbind read_u8 (fun b => if b ≠ expected then perr .Invalid else ppure ())

/-- `expect_u32`: read a big-endian u32 and compare, `Invalid` on
mismatch. -/
def expect_u32 (expected : Nat) : Rd ErrorKind Unit :=
  pbind read_u32 (fun v => if v ≠ expected then perr .Invalid else ppure ())

/-- Loop body of `read_vlq`. `fuel = 4 - size`: the source checks
`size > 3` at the top of each iteration and fails with `Invalid`; otherwise
it reads a byte, ors in its low 7 bits, and, if the high bit is set, shifts
the 32-bit accumulator left by 7 (wrapping) and continues. -/
def read_vlq_aux (result : Nat) : Nat → Rd ErrorKind Nat
  | 0 => perr .Invalid
  | fuel + 1 =>
    pbind read_u8 (fun byte =>
      let r := result ||| (byte &&& 0x7f)
      if byte &&& 0x80 ≠ 0 then read_vlq_aux ((r <<< 7) % 2 ^ 32) fuel
      else ppure r)

/-- `read_vlq`: base-128 variable-length quantity, at most 4 bytes. -/
def read_vlq : Rd ErrorKind Nat := read_vlq_aux 0 4

/-- `read_data`: a VLQ length followed by that many bytes. -/
def read_data : Rd ErrorKind (List Nat) :=
  pbind read_vlq (fun length => read_bytes length)

/-- `read_text`: `read_data` wrapped in `Text`. -/
def read_text : Rd ErrorKind Text :=
  pbind read_data (fun d => ppure (Text.mk d))

/-- `read_action`: byte `0x00` is Disconnect, `0x7F` Reconnect, else
`Invalid`. -/
def read_action : Rd ErrorKind Action :=
  pbind read_u8 (fun byte =>
    match byte with
    | 0x00 => ppure .Disconnect
    | 0x7f => ppure .Reconnect
    | _ => perr .Invalid)

/-- `read_meta_event`: meta-type byte then the fixed dispatch table; types
outside the table fall through to `Unknown`. -/
def read_meta_event : Rd ErrorKind MetaEvent :=
  pbind read_u8 (fun meta_type =>
    match meta_type with
    | 0x00 => pbind (expect_u8 2) (fun _ =>
        pbind read_u16 (fun number => ppure (.SequenceNumber number)))
    | 0x01 => pbind read_text (fun t => ppure (.Text t))
    | 0x02 => pbind read_text (fun t => ppure (.CopyrightNotice t))
    | 0x03 => pbind read_text (fun t => ppure (.Name t))
    | 0x04 => pbind read_text (fun t => ppure (.InstrumentName t))
    | 0x05 => pbind read_text (fun t => ppure (.Lyric t))
    | 0x06 => pbind read_text (fun t => ppure (.Marker t))
    | 0x07 => pbind read_text (fun t => ppure (.CuePoint t))
    | 0x20 => pbind (expect_u8 1) (fun _ =>
        pbind read_u8 (fun channel => ppure (.ChannelPrefixEv channel)))
    | 0x2f => pbind (expect_u8 0) (fun _ => ppure .EndOfTrack)
    | 0x51 => pbind (expect_u8 3) (fun _ =>
        pbind read_u24 (fun tempo => ppure (.SetTempo tempo)))
    | 0x54 => pbind (expect_u8 5) (fun _ =>
        pbind read_u8 (fun hh => pbind read_u8 (fun mm =>
        pbind read_u8 (fun ss => pbind read_u8 (fun fr =>
        pbind read_u8 (fun ff => ppure (.SMTPEOffset hh mm ss fr ff)))))))
    | 0x58 => pbind (expect_u8 4) (fun _ =>
        pbind read_u8 (fun nn => pbind read_u8 (fun dd =>
        pbind read_u8 (fun cc => pbind read_u8 (fun bb =>
        ppure (.TimeSignature nn dd cc bb))))))
    | 0x59 => pbind (expect_u8 2) (fun _ =>
        pbind read_u8 (fun sf => pbind read_u8 (fun mi =>
        ppure (.KeySignature sf mi))))
    | 0x7f => pbind read_data (fun d => ppure (.SequencerSpecific d))
    | _ => pbind read_data (fun d => ppure (.Unknown meta_type d)))

/-- `read_midi_event`: dispatch on the high nibble of the status byte; the
channel is the low nibble. Status values outside the table reach
`unimplemented!()`. -/
def read_midi_event (status_byte : Nat) : Rd ErrorKind MidiEvent :=
  let channel := status_byte &&& 0x0f
  let status := status_byte &&& 0xf0
  pbind
    (match status with
     | 0x80 => pbind read_u7 (fun key => pbind read_u7 (fun velocity =>
         ppure (MidiEventKind.NoteOff key velocity)))
     | 0x90 => pbind read_u7 (fun key => pbind read_u7 (fun velocity =>
         ppure (MidiEventKind.NoteOn key velocity)))
     | 0xa0 => pbind read_u7 (fun key => pbind read_u7 (fun velocity =>
         ppure (MidiEventKind.PolyphonicKeyPressure key velocity)))
     | 0xb0 => pbind read_u7 (fun number =>
         match number with
         | 0x78 => pbind (expect_u8 0) (fun _ => ppure MidiEventKind.AllSoundOff)
         | 0x79 => pbind (expect_u8 0) (fun _ => ppure MidiEventKind.ResetAllControllers)
         | 0x7a => pbind read_action (fun a => ppure (MidiEventKind.LocalControl a))
         | 0x7b => pbind (expect_u8 0) (fun _ => ppure MidiEventKind.AllNotesOff)
         | 0x7c => pbind (expect_u8 0) (fun _ => ppure MidiEventKind.OmniModeOff)
         | 0x7d => pbind (expect_u8 0) (fun _ => ppure MidiEventKind.OmniModeOn)
         | 0x7e => pbind read_u8 (fun n => ppure (MidiEventKind.MonoModeOn n))
         | 0x7f => pbind (expect_u8 0) (fun _ => ppure MidiEventKind.PolyModeOn)
         | _ => pbind read_u7 (fun value =>
             ppure (MidiEventKind.ControllerChange number value)))
     | 0xc0 => pbind read_u7 (fun p => ppure (MidiEventKind.ProgramChange p))
     | 0xd0 => pbind read_u7 (fun p => ppure (MidiEventKind.ChannelKeyPressure p))
     | 0xe0 => pbind read_u7 (fun lsb => pbind read_u7 (fun msb =>
         ppure (MidiEventKind.PitchBend lsb msb)))
     | _ => ppanic)
    (fun kind => ppure { channel := channel, kind := kind })

/-- `read_event`: delta-time VLQ, event-type byte, then dispatch to sysex,
meta, or MIDI decoding, each failure tagged with its context string. -/
def read_event : Rd Error Event :=
  pbind (withCtx "read_event: event must have valid time" read_vlq) (fun time =>
  pbind (withCtx "read_event: event must have type" read_u8) (fun event_type =>
  pbind
    (match event_type with
     | 0xf0 => withCtx "read_event: failed to read sysex event"
         (pbind read_data (fun d => ppure (EventKind.Sysex (.F0 d))))
     | 0xf7 => withCtx "read_event: failed to read sysex event"
         (pbind read_data (fun d => ppure (EventKind.Sysex (.F7 d))))
     | 0xff => withCtx "read_event: failed to read meta event"
         (pbind read_meta_event (fun m => ppure (EventKind.Meta m)))
     | _ => withCtx "read_event: failed to read midi event"
         (pbind (read_midi_event event_type) (fun m => ppure (EventKind.Midi m))))
    (fun kind => ppure { kind := kind, time := time })))

/-- `read_header_chunk`: literal `MThd`, length 6, format, tracks,
division. -/
def read_header_chunk : Rd Error HeaderChunk :=
  pbind (withCtx "read_header_chunk: header type must be \x27MThd\x27"
      (expect_bytes [77, 84, 104, 100])) (fun _ =>
  pbind (withCtx "read_header_chunk: header data length should be 6"
      (expect_u32 6)) (fun _ =>
  pbind (withCtx "read_header_chunk: header must specify format"
      read_format) (fun format =>
  pbind (withCtx "read_header_chunk: header must specify tracks"
      read_u16) (fun tracks =>
  pbind (withCtx "read_header_chunk: header must specify division"
      read_u16) (fun division =>
  ppure { format := format, tracks := tracks, division := division })))))

/-- A track chunk: the byte span of its declared payload. -/
structure TrackChunk where
  data : List Nat
deriving DecidableEq

/-- `read_track_chunk`: literal `MTrk`, u32 length, then exactly that many
payload bytes. -/
def read_track_chunk : Rd Error TrackChunk :=
  pbind (withCtx "read_track_chunk: track type must be \x27MTrk\x27"
      (expect_bytes [77, 84, 114, 107])) (fun _ =>
  pbind (withCtx "read_track_chunk: track must specify len"
      read_u32) (fun len =>
  pbind (withCtx "read_track_chunk: track must contain event bytes"
      (read_bytes len)) (fun data =>
  ppure { data := data })))

instance {ε α : Type} [DecidableEq ε] [DecidableEq α] : DecidableEq (Except ε α) := fun
  | .ok a, .ok b => if h : a = b then .isTrue (by rw [h]) else .isFalse (by simp [h])
  | .ok _, .error _ => .isFalse (by simp)
  | .error _, .ok _ => .isFalse (by simp)
  | .error a, .error b => if h : a = b then .isTrue (by rw [h]) else .isFalse (by simp [h])

/-- One step of a Rust iterator: `None`, `Some item`, or a panic raised
inside `next`. -/
inductive IterStep (α : Type) where
  | none
  | some (a : α)
  | panicked
deriving DecidableEq

/-- State of `TrackChunkIter`: the remaining outer buffer and the countdown
of tracks left to yield. -/
structure TrackChunkIter where
  data : List Nat
  tracks : Nat
deriving DecidableEq

/-- `TrackChunkIter::next`: when the countdown is zero, end the iteration if
the buffer is empty, else report undread trailing data; otherwise decrement
and read one track chunk (the cursor aliases `self.data`, so even a failed
read advances the stored buffer). -/
def TrackChunkIter.next (it : TrackChunkIter) :
    IterStep (Except Error TrackChunk) × TrackChunkIter :=
  if it.tracks = 0 then
    if it.data.isEmpty then (.none, it)
    else (.some (.error ⟨"TrackChunkIter::next: undread data left", .Invalid⟩), it)
  else
    match read_track_chunk it.data with
    | .ok tc s' => (.some (.ok tc), ⟨s', it.tracks - 1⟩)
    | .err e s' => (.some (.error e), ⟨s', it.tracks - 1⟩)
    | .panicked => (.panicked, it)

/-- `<TrackChunk as Iterator>::next`: end when the span is empty, else read
one event (the cursor aliases `self.data`). -/
def TrackChunk.next (tc : TrackChunk) :
    IterStep (Except Error Event) × TrackChunk :=
  if tc.data.isEmpty then (.none, tc)
  else
    match read_event tc.data with
    | .ok e s' => (.some (.ok e), ⟨s'⟩)
    | .err er s' => (.some (.error er), ⟨s'⟩)
    | .panicked => (.panicked, tc)

/-- Result of driving an iterator to completion with the given fuel:
success with the collected items, stop at the first error, a panic, or
`more` when the fuel ran out before the iterator ended. -/
inductive RunRes (α : Type) where
  | ok (a : α)
  | err (e : Error)
  | panicked
  | more
deriving DecidableEq

/-- Drive the event iterator of one track chunk, collecting events and
stopping at the first error (as `Smf::read` does via `collect`). -/
def TrackChunk.run : Nat → TrackChunk → RunRes (List Event)
  | 0, _ => .more
  | fuel + 1, tc =>
    match TrackChunk.next tc with
    | (.none, _) => .ok []
    | (.some (.ok e), tc') =>
      match TrackChunk.run fuel tc' with
      | .ok evs => .ok (e :: evs)
      | r => r
    | (.some (.error er), _) => .err er
    | (.panicked, _) => .panicked

/-- Drive the track-chunk iterator, collecting the yielded chunks and
stopping at the first error. -/
def TrackChunkIter.run : Nat → TrackChunkIter → RunRes (List TrackChunk)
  | 0, _ => .more
  | fuel + 1, it =>
    match TrackChunkIter.next it with
    | (.none, _) => .ok []
    | (.some (.ok tc), it') =>
      match TrackChunkIter.run fuel it' with
      | .ok tcs => .ok (tc :: tcs)
      | r => r
    | (.some (.error e), _) => .err e
    | (.panicked, _) => .panicked

/-- `SmfReader`: the parsed header and the bytes after it. -/
structure SmfReader where
  header : HeaderChunk
  data : List Nat
deriving DecidableEq

/-- `SmfReader::new`: parse the header eagerly, keep the remaining bytes. -/
def SmfReader.new (data : List Nat) : PR Error SmfReader :=
  match read_header_chunk data with
  | .ok h rest => .ok ⟨h, rest⟩ rest
  | .err e s => .err e s
  | .panicked => .panicked

/-- `SmfReader::track_chunk_iter`. -/
def SmfReader.trackChunkIter (r : SmfReader) : TrackChunkIter :=
  ⟨r.data, r.header.tracks⟩

/-- Decoded `Smf` (the eager convenience layer of `features/alloc.rs`). -/
structure Smf where
  format : Format
  tracks : List (List Event)
  division : Nat
deriving DecidableEq

/-- The track-collection loop of `Smf::read`: for each yielded chunk,
collect all its events; stop at the first error anywhere. `cf` fuels the
chunk loop, `ef` each chunk's event loop. -/
def collectTracks : Nat → Nat → TrackChunkIter → RunRes (List (List Event))
  | 0, _, _ => .more
  | cf + 1, ef, it =>
    match TrackChunkIter.next it with
    | (.none, _) => .ok []
    | (.some (.ok tc), it') =>
      match TrackChunk.run ef tc with
      | .ok evs =>
        match collectTracks cf ef it' with
        | .ok rest => .ok (evs :: rest)
        | r => r
      | .err e => .err e
      | .panicked => .panicked
      | .more => .more
    | (.some (.error e), _) => .err e
    | (.panicked, _) => .panicked

/-- `Smf::read`: the full decode — header, then every declared track chunk,
then every event of each chunk. -/
def Smf.read (cf ef : Nat) (data : List Nat) : RunRes Smf :=
  match SmfReader.new data with
  | .ok rdr _ =>
    (match collectTracks cf ef rdr.trackChunkIter with
     | .ok ts => .ok ⟨rdr.header.format, ts, rdr.header.division⟩
     | .err e => .err e
     | .panicked => .panicked
     | .more => .more)
  | .err e _ => .err e
  | .panicked => .panicked

/-- Big-endian 16-bit encoding. -/
def u16be (n : Nat) : List Nat := [n / 256 % 256, n % 256]

/-- Big-endian 32-bit encoding. -/
def u32be (n : Nat) : List Nat :=
  [n / 2 ^ 24 % 256, n / 2 ^ 16 % 256, n / 2 ^ 8 % 256, n % 256]

/-- The 14 header bytes of a well-formed SMF buffer. -/
def headerBytes (format tracks division : Nat) : List Nat :=
  [77, 84, 104, 100, 0, 0, 0, 6] ++ u16be format ++ u16be tracks ++ u16be division

/-- The byte run of one `MTrk` chunk with the given payload. -/
def chunkBytes (payload : List Nat) : List Nat :=
  [77, 84, 114, 107] ++ u32be payload.length ++ payload

/-- `read_event` accepts the byte run `r` and consumes exactly it. -/
def EventRun (r : List Nat) : Prop := ∃ e, read_event r = .ok e []

/-- Decidable test for `EventRun`. -/
def eventRunB (r : List Nat) : Bool :=
  match read_event r with
  | .ok _ rest => rest.isEmpty
  | _ => false

/-- The shape of a well-formed SMF buffer: a format, a division, and, per
track, the list of byte runs of that track's events. -/
structure SmfShape where
  format : Nat
  division : Nat
  tracks : List (List (List Nat))

/-- The byte buffer a shape denotes: header bytes, then one `MTrk` chunk
per track whose payload is the concatenation of its event runs. -/
def SmfShape.bytes (sh : SmfShape) : List Nat :=
  headerBytes sh.format sh.tracks.length sh.division ++
    (sh.tracks.map (fun t => chunkBytes t.flatten)).flatten

/-- Well-formedness: legal header fields, 32-bit payload lengths, every
event run accepted by `read_event` exactly, and every byte a `u8`. -/
def SmfShape.WF (sh : SmfShape) : Prop :=
  sh.format < 3 ∧ sh.division < 2 ^ 16 ∧ sh.tracks.length < 2 ^ 16 ∧
  (∀ t ∈ sh.tracks, t.flatten.length < 2 ^ 32 ∧ ∀ r ∈ t, eventRunB r = true) ∧
  (∀ b ∈ sh.bytes, b < 256)

/-- Event-loop fuel sufficient for every track of a shape. -/
def SmfShape.evFuel (sh : SmfShape) : Nat :=
  (sh.tracks.map List.length).foldr max 0 + 1

/-- The `Format` value the header's format field decodes to (legal fields
only: `0`, `1`, `2`). -/
def formatOf (f : Nat) : Format :=
  match f with
  | 0 => .Single
  | 1 => .MultiTrack
  | _ => .MultiSequence

/-- Advance the track-chunk iterator by one `next` call, keeping only the
state. -/
def stepIter (it : TrackChunkIter) : TrackChunkIter :=
  (TrackChunkIter.next it).2

/-- A reader only looks at the bytes it consumes: appending a tail to the
input does not change a successful parse, and the tail survives. -/
def ExtOk (p : Rd ε α) : Prop :=
  ∀ s t a r, p s = .ok a r → p (s ++ t) = .ok a (r ++ t)

/-- A concrete well-formed shape: format 1, division 1024, one track with
a NoteOn event and an EndOfTrack meta event. -/
def sampleShapeA : SmfShape :=
  ⟨1, 1024, [[[0, 0x90, 60, 64], [0, 0xff, 0x2f, 0]]]⟩

/-- A concrete well-formed shape used for the truncation claim: format 0,
division 96, two tracks. -/
def sampleShapeB : SmfShape :=
  ⟨0, 96, [[[0, 0xff, 0x2f, 0]], [[0, 0xc0, 5], [0, 0xff, 0x2f, 0]]]⟩

/-! ### Arithmetic and bitwise helpers -/

theorem and_127_eq_mod (b : Nat) : b &&& 127 = b % 128 :=
  Nat.and_pow_two_sub_one_eq_mod b 7

theorem and_128_of_lt {b : Nat} (h : b < 128) : b &&& 128 = 0 := by
  have h7 : Nat.testBit b 7 = false := Nat.testBit_lt_two_pow h
  have := Nat.and_two_pow b 7
  simpa [h7] using this

theorem and_128_of_ge {b : Nat} (h : 128 ≤ b) (h' : b < 256) : b &&& 128 = 128 := by
  have h7 : Nat.testBit b 7 = true := by
    rw [Nat.testBit_to_div_mod]
    have : b / 128 = 1 := by omega
    simp [this]
  have := Nat.and_two_pow b 7
  simpa [h7] using this

theorem mul128_lor {a b : Nat} (hb : b < 128) : a * 128 ||| b = a * 128 + b := by
  apply Nat.eq_of_testBit_eq
  intro j
  have hmul : a * 128 = a <<< 7 := by rw [Nat.shiftLeft_eq]
  have hadd : a * 128 + b = 2 ^ 7 * a + b := by ring_nf
  rw [Nat.testBit_lor, hadd, Nat.testBit_mul_pow_two_add a hb j, hmul,
    Nat.testBit_shiftLeft]
  by_cases hj : j < 7
  · have : ¬(7 ≤ j) := by omega
    simp [hj, this]
  · have h7j : 7 ≤ j := by omega
    have hpow : (2 : Nat) ^ 7 ≤ 2 ^ j := Nat.pow_le_pow_right (by norm_num) h7j
    have hbj : b < 2 ^ j := by omega
    have : Nat.testBit b j = false := Nat.testBit_lt_two_pow hbj
    simp [hj, h7j, this]

theorem le_foldr_max {x : Nat} : ∀ {l : List Nat}, x ∈ l → x ≤ l.foldr max 0
  | a :: l, h => by
    rcases List.mem_cons.mp h with h | h
    · subst h; exact le_max_left _ _
    · exact le_trans (le_foldr_max h) (le_max_right _ _)

/-! ### Computation lemmas for the cursor primitives -/

theorem read_bytes_exact {l : List Nat} (t : List Nat) :
    read_bytes l.length (l ++ t) = .ok l t := by
  have hlen : ¬((l ++ t).length < l.length) := by simp
  simp [read_bytes, hlen, List.take_left, List.drop_left]

theorem read_bytes_split {n : Nat} {s : List Nat} (h : n ≤ s.length) :
    read_bytes n s = .ok (s.take n) (s.drop n) := by
  simp [read_bytes, Nat.not_lt.mpr h]

theorem read_bytes_short {n : Nat} {s : List Nat} (h : s.length < n) :
    read_bytes n s = .err .Fatal s := by
  simp [read_bytes, h]

theorem read_u8_cons (b : Nat) (s : List Nat) : read_u8 (b :: s) = .ok b s := by
  have : read_bytes 1 (b :: s) = .ok [b] s := read_bytes_exact (l := [b]) s
  simp [read_u8, pbind, this, ppure]

theorem read_u8_nil : read_u8 [] = .err .Fatal [] := by
  simp [read_u8, read_bytes, pbind]

theorem beBytes_two (a b : Nat) : beBytes [a, b] = a * 256 + b := by
  simp [beBytes]

theorem beBytes_four (a b c d : Nat) :
    beBytes [a, b, c, d] = ((a * 256 + b) * 256 + c) * 256 + d := by
  simp [beBytes]

theorem read_u16_enc {n : Nat} (h : n < 2 ^ 16) (t : List Nat) :
    read_u16 (u16be n ++ t) = .ok n t := by
  have hb : read_bytes 2 (u16be n ++ t) = .ok (u16be n) t :=
    read_bytes_exact (l := u16be n) t
  have hv : beBytes (u16be n) = n := by
    simp [u16be, beBytes]; omega
  simp [read_u16, pbind, hb, ppure, hv]

theorem read_u32_enc {n : Nat} (h : n < 2 ^ 32) (t : List Nat) :
    read_u32 (u32be n ++ t) = .ok n t := by
  have hb : read_bytes 4 (u32be n ++ t) = .ok (u32be n) t :=
    read_bytes_exact (l := u32be n) t
  have hv : beBytes (u32be n) = n := by
    simp [u32be, beBytes]; omega
  simp [read_u32, pbind, hb, ppure, hv]

theorem expect_bytes_exact (e t : List Nat) : expect_bytes e (e ++ t) = .ok () t := by
  simp [expect_bytes, pbind, read_bytes_exact (l := e) t, ppure]

theorem expect_u8_exact (b : Nat) (t : List Nat) : expect_u8 b (b :: t) = .ok () t := by
  simp [expect_u8, pbind, read_u8_cons, ppure]

theorem read_u7_lo {b : Nat} (h : b ≤ 0x7f) (t : List Nat) :
    read_u7 (b :: t) = .ok b t := by
  simp [read_u7, pbind, read_u8_cons, h, ppure]

theorem read_u7_hi {b : Nat} (h : 0x80 ≤ b) (t : List Nat) :
    read_u7 (b :: t) = .err .Invalid t := by
  have : ¬(b ≤ 0x7f) := by omega
  simp [read_u7, pbind, read_u8_cons, this, perr]

theorem pbind_ok {p : Rd ε α} {f : α → Rd ε β} {s : List Nat} {a : α}
    {s' : List Nat} (h : p s = .ok a s') : pbind p f s = f a s' := by
  simp [pbind, h]

theorem pbind_err {p : Rd ε α} {f : α → Rd ε β} {s : List Nat} {e : ε}
    {s' : List Nat} (h : p s = .err e s') : pbind p f s = .err e s' := by
  simp [pbind, h]

theorem pbind_panicked {p : Rd ε α} {f : α → Rd ε β} {s : List Nat}
    (h : p s = .panicked) : pbind p f s = .panicked := by
  simp [pbind, h]

theorem withCtx_ok {p : Rd ErrorKind α} {c : String} {s : List Nat} {a : α}
    {s' : List Nat} (h : p s = .ok a s') : withCtx c p s = .ok a s' := by
  simp [withCtx, h]

theorem withCtx_err {p : Rd ErrorKind α} {c : String} {s : List Nat}
    {k : ErrorKind} {s' : List Nat} (h : p s = .err k s') :
    withCtx c p s = .err ⟨c, k⟩ s' := by
  simp [withCtx, h]

theorem withCtx_panicked {p : Rd ErrorKind α} {c : String} {s : List Nat}
    (h : p s = .panicked) : withCtx c p s = .panicked := by
  simp [withCtx, h]

/-! ### VLQ computation lemmas -/

theorem read_vlq_aux_stop {res b : Nat} (hb : b < 128) (fuel : Nat)
    (t : List Nat) :
    read_vlq_aux res (fuel + 1) (b :: t) = .ok (res ||| b) t := by
  have hc : b &&& 0x80 = 0 := and_128_of_lt hb
  have hm : b &&& 0x7f = b := by rw [and_127_eq_mod]; omega
  simp [read_vlq_aux, pbind_ok (read_u8_cons b t), hc, hm, ppure]

theorem read_vlq_aux_cont {res b : Nat} (hb : 128 ≤ b) (hb' : b < 256)
    (fuel : Nat) (t : List Nat) :
    read_vlq_aux res (fuel + 1) (b :: t) =
      read_vlq_aux (((res ||| b % 128) <<< 7) % 2 ^ 32) fuel t := by
  have hc : b &&& 0x80 = 128 := and_128_of_ge hb hb'
  have hm : b &&& 0x7f = b % 128 := and_127_eq_mod b
  simp [read_vlq_aux, pbind_ok (read_u8_cons b t), hc, hm]

theorem shift7_small {a : Nat} (h : a < 2 ^ 25) : (a <<< 7) % 2 ^ 32 = a * 128 := by
  rw [Nat.shiftLeft_eq]
  have : a * 2 ^ 7 < 2 ^ 32 := by
    calc a * 2 ^ 7 < 2 ^ 25 * 2 ^ 7 := by
          exact Nat.mul_lt_mul_of_lt_of_le h (le_refl _) (by norm_num)
    _ = 2 ^ 32 := by norm_num
  rw [Nat.mod_eq_of_lt this]
  norm_num

theorem read_vlq_ok1 {b0 : Nat} (h0 : b0 < 128) (t : List Nat) :
    read_vlq (b0 :: t) = .ok b0 t := by
  rw [read_vlq, read_vlq_aux_stop h0, Nat.zero_or]

theorem read_vlq_ok2 {b0 b1 : Nat} (h0 : 128 ≤ b0) (h0' : b0 < 256)
    (h1 : b1 < 128) (t : List Nat) :
    read_vlq (b0 :: b1 :: t) = .ok (b0 % 128 * 128 + b1) t := by
  rw [read_vlq, read_vlq_aux_cont h0 h0', Nat.zero_or,
    shift7_small (by omega), read_vlq_aux_stop h1, mul128_lor h1]

theorem read_vlq_ok3 {b0 b1 b2 : Nat} (h0 : 128 ≤ b0) (h0' : b0 < 256)
    (h1 : 128 ≤ b1) (h1' : b1 < 256) (h2 : b2 < 128) (t : List Nat) :
    read_vlq (b0 :: b1 :: b2 :: t) =
      .ok ((b0 % 128 * 128 + b1 % 128) * 128 + b2) t := by
  rw [read_vlq, read_vlq_aux_cont h0 h0', Nat.zero_or, shift7_small (by omega),
    read_vlq_aux_cont h1 h1', mul128_lor (by omega), shift7_small (by omega),
    read_vlq_aux_stop h2, mul128_lor h2]

theorem read_vlq_ok4 {b0 b1 b2 b3 : Nat} (h0 : 128 ≤ b0) (h0' : b0 < 256)
    (h1 : 128 ≤ b1) (h1' : b1 < 256) (h2 : 128 ≤ b2) (h2' : b2 < 256)
    (h3 : b3 < 128) (t : List Nat) :
    read_vlq (b0 :: b1 :: b2 :: b3 :: t) =
      .ok (((b0 % 128 * 128 + b1 % 128) * 128 + b2 % 128) * 128 + b3) t := by
  rw [read_vlq, read_vlq_aux_cont h0 h0', Nat.zero_or, shift7_small (by omega),
    read_vlq_aux_cont h1 h1', mul128_lor (by omega), shift7_small (by omega),
    read_vlq_aux_cont h2 h2', mul128_lor (by omega), shift7_small (by omega),
    read_vlq_aux_stop h3, mul128_lor h3]

theorem read_vlq_cont4 {b0 b1 b2 b3 : Nat} (h0 : 128 ≤ b0) (h0' : b0 < 256)
    (h1 : 128 ≤ b1) (h1' : b1 < 256) (h2 : 128 ≤ b2) (h2' : b2 < 256)
    (h3 : 128 ≤ b3) (h3' : b3 < 256) (t : List Nat) :
    read_vlq (b0 :: b1 :: b2 :: b3 :: t) = .err .Invalid t := by
  rw [read_vlq, read_vlq_aux_cont h0 h0', read_vlq_aux_cont h1 h1',
    read_vlq_aux_cont h2 h2', read_vlq_aux_cont h3 h3']
  rfl

/-! ### Header and track-chunk computation lemmas -/

theorem expect_bytes_ne {e l : List Nat} (hlen : l.length = e.length)
    (hne : l ≠ e) (t : List Nat) : expect_bytes e (l ++ t) = .err .Invalid t := by
  rw [expect_bytes, ← hlen, pbind_ok (read_bytes_exact t)]
  simp [hne, perr]

theorem expect_u32_eq {v : Nat} (hv : v < 2 ^ 32) (t : List Nat) :
    expect_u32 v (u32be v ++ t) = .ok () t := by
  rw [expect_u32, pbind_ok (read_u32_enc hv t)]
  simp [ppure]

theorem expect_u32_ne {v w : Nat} (hw : w < 2 ^ 32) (hne : w ≠ v)
    (t : List Nat) : expect_u32 v (u32be w ++ t) = .err .Invalid t := by
  rw [expect_u32, pbind_ok (read_u32_enc hw t)]
  simp [hne, perr]

theorem read_format_enc {f : Nat} (hf : f < 3) (t : List Nat) :
    read_format (u16be f ++ t) = .ok (formatOf f) t := by
  interval_cases f <;>
    · rw [read_format, pbind_ok (read_u16_enc (by norm_num) t)]
      rfl

theorem read_format_bad {f : Nat} (hf : 3 ≤ f) (hf' : f < 2 ^ 16)
    (t : List Nat) : read_format (u16be f ++ t) = .err .Invalid t := by
  obtain ⟨k, rfl⟩ : ∃ k, f = k + 3 := ⟨f - 3, by omega⟩
  rw [read_format, pbind_ok (read_u16_enc hf' t)]
  rfl

theorem read_header_chunk_enc {f n d : Nat} (hf : f < 3) (hn : n < 2 ^ 16)
    (hd : d < 2 ^ 16) (t : List Nat) :
    read_header_chunk (headerBytes f n d ++ t) =
      .ok ⟨formatOf f, n, d⟩ t := by
  have hsh : headerBytes f n d ++ t =
      [77, 84, 104, 100] ++ (u32be 6 ++ (u16be f ++ (u16be n ++ (u16be d ++ t)))) := by
    have h6 : (u32be 6 : List Nat) = [0, 0, 0, 6] := by decide
    simp [headerBytes, h6, List.append_assoc]
  rw [read_header_chunk, hsh,
    pbind_ok (withCtx_ok (expect_bytes_exact [77, 84, 104, 100] _)),
    pbind_ok (withCtx_ok (expect_u32_eq (by norm_num) _)),
    pbind_ok (withCtx_ok (read_format_enc hf _)),
    pbind_ok (withCtx_ok (read_u16_enc hn _)),
    pbind_ok (withCtx_ok (read_u16_enc hd _))]
  rfl

theorem read_track_chunk_enc {p : List Nat} (hp : p.length < 2 ^ 32)
    (t : List Nat) : read_track_chunk (chunkBytes p ++ t) = .ok ⟨p⟩ t := by
  have hsh : chunkBytes p ++ t =
      [77, 84, 114, 107] ++ (u32be p.length ++ (p ++ t)) := by
    simp [chunkBytes, List.append_assoc]
  rw [read_track_chunk, hsh,
    pbind_ok (withCtx_ok (expect_bytes_exact [77, 84, 114, 107] _)),
    pbind_ok (withCtx_ok (read_u32_enc hp _)),
    pbind_ok (withCtx_ok (read_bytes_exact t))]
  rfl

/-! ### Truncation lemmas -/

theorem read_u16_short {s : List Nat} (h : s.length < 2) :
    read_u16 s = .err .Fatal s := by
  rw [read_u16, pbind_err (read_bytes_short h)]

theorem read_u32_short {s : List Nat} (h : s.length < 4) :
    read_u32 s = .err .Fatal s := by
  rw [read_u32, pbind_err (read_bytes_short h)]

theorem read_header_chunk_dropLast {f n d : Nat} (hf : f < 3) (hn : n < 2 ^ 16) :
    read_header_chunk ((headerBytes f n d).dropLast) =
      .err ⟨"read_header_chunk: header must specify division", .Fatal⟩
        [d / 256 % 256] := by
  have hsh : (headerBytes f n d).dropLast =
      [77, 84, 104, 100] ++ (u32be 6 ++ (u16be f ++ (u16be n ++ [d / 256 % 256]))) := by
    have h6 : (u32be 6 : List Nat) = [0, 0, 0, 6] := by decide
    have : headerBytes f n d =
        ([77, 84, 104, 100] ++ (u32be 6 ++ (u16be f ++ (u16be n ++ [d / 256 % 256])))) ++
          [d % 256] := by
      simp [headerBytes, u16be, h6, List.append_assoc]
    rw [this, List.dropLast_concat]
  rw [read_header_chunk, hsh,
    pbind_ok (withCtx_ok (expect_bytes_exact [77, 84, 104, 100] _)),
    pbind_ok (withCtx_ok (expect_u32_eq (by norm_num) _)),
    pbind_ok (withCtx_ok (read_format_enc hf _)),
    pbind_ok (withCtx_ok (read_u16_enc hn _)),
    pbind_err (withCtx_err (read_u16_short (by simp)))]

theorem read_track_chunk_dropLast {p : List Nat} (hp : p.length < 2 ^ 32) :
    ∃ c s', read_track_chunk ((chunkBytes p).dropLast) =
      .err ⟨c, .Fatal⟩ s' := by
  rcases List.eq_nil_or_concat p with hnil | ⟨q, b, rfl⟩
  · subst hnil
    refine ⟨"read_track_chunk: track must specify len", [0, 0, 0], ?_⟩
    have hsh : ((chunkBytes []).dropLast : List Nat) =
        [77, 84, 114, 107] ++ [0, 0, 0] := by decide
    rw [hsh, read_track_chunk,
      pbind_ok (withCtx_ok (expect_bytes_exact [77, 84, 114, 107] _)),
      pbind_err (withCtx_err (read_u32_short (by simp)))]
  · refine ⟨"read_track_chunk: track must contain event bytes", q, ?_⟩
    rw [List.concat_eq_append] at hp ⊢
    have hsh : (chunkBytes (q ++ [b])).dropLast =
        [77, 84, 114, 107] ++ (u32be (q ++ [b]).length ++ q) := by
      have : chunkBytes (q ++ [b]) =
          ([77, 84, 114, 107] ++ (u32be (q ++ [b]).length ++ q)) ++ [b] := by
        simp [chunkBytes, List.append_assoc]
      rw [this, List.dropLast_concat]
    have hshort : read_bytes (q ++ [b]).length q = .err .Fatal q :=
      read_bytes_short (by simp)
    rw [hsh, read_track_chunk,
      pbind_ok (withCtx_ok (expect_bytes_exact [77, 84, 114, 107] _)),
      pbind_ok (withCtx_ok (read_u32_enc hp _)),
      pbind_err (withCtx_err hshort)]

/-! ### Parser locality (successful parses survive appending a tail) -/

theorem extOk_ppure (a : α) : ExtOk (ppure a : Rd ε α) := by
  intro s t b r h
  simp only [ppure, PR.ok.injEq] at h ⊢
  exact ⟨h.1, by rw [h.2]⟩

theorem extOk_perr (e : ε) : ExtOk (perr e : Rd ε α) := by
  intro s t a r h
  simp [perr] at h

theorem extOk_ppanic : ExtOk (ppanic : Rd ε α) := by
  intro s t a r h
  simp [ppanic] at h

theorem extOk_pbind {p : Rd ε α} {f : α → Rd ε β} (hp : ExtOk p)
    (hf : ∀ a, ExtOk (f a)) : ExtOk (pbind p f) := by
  intro s t b r h
  simp only [pbind] at h ⊢
  cases hps : p s with
  | ok a s' =>
    rw [hps] at h
    rw [hp s t a s' hps]
    exact hf a s' t b r h
  | err e s' => rw [hps] at h; exact absurd h (by simp)
  | panicked => rw [hps] at h; exact absurd h (by simp)

theorem extOk_withCtx {p : Rd ErrorKind α} (c : String) (hp : ExtOk p) :
    ExtOk (withCtx c p) := by
  intro s t b r h
  simp only [withCtx] at h ⊢
  cases hps : p s with
  | ok a s' =>
    rw [hps] at h
    rw [hp s t a s' hps]
    have h' : (PR.ok a s' : PR Error α) = .ok b r := h
    injection h' with h1 h2
    subst h1; subst h2
    rfl
  | err e s' => rw [hps] at h; exact absurd h (by simp)
  | panicked => rw [hps] at h; exact absurd h (by simp)

theorem extOk_read_bytes (n : Nat) : ExtOk (read_bytes n) := by
  intro s t a r h
  by_cases hlen : s.length < n
  · rw [read_bytes_short hlen] at h
    exact absurd h (by simp)
  · push_neg at hlen
    rw [read_bytes_split hlen] at h
    injection h with h1 h2
    subst h1; subst h2
    have hlen' : n ≤ (s ++ t).length := by simp; omega
    rw [read_bytes_split hlen', List.take_append_of_le_length hlen,
      List.drop_append_of_le_length hlen]

theorem extOk_read_u8 : ExtOk read_u8 :=
  extOk_pbind (extOk_read_bytes 1) (fun bs => extOk_ppure (bs.headD 0))

theorem extOk_read_u7 : ExtOk read_u7 := by
  apply extOk_pbind extOk_read_u8
  intro b
  by_cases hb : b ≤ 0x7f
  · simp only [read_u7, if_pos hb]; exact extOk_ppure b
  · simp only [read_u7, if_neg hb]; exact extOk_perr _

theorem extOk_read_u16 : ExtOk read_u16 :=
  extOk_pbind (extOk_read_bytes 2) (fun bs => extOk_ppure (beBytes bs))

theorem extOk_read_u24 : ExtOk read_u24 :=
  extOk_pbind (extOk_read_bytes 3) (fun bs => extOk_ppure (beBytes bs))

theorem extOk_read_u32 : ExtOk read_u32 :=
  extOk_pbind (extOk_read_bytes 4) (fun bs => extOk_ppure (beBytes bs))

theorem extOk_read_format : ExtOk read_format := by
  apply extOk_pbind extOk_read_u16
  intro v
  split
  · exact extOk_ppure _
  · exact extOk_ppure _
  · exact extOk_ppure _
  · exact extOk_perr _

theorem extOk_expect_bytes (e : List Nat) : ExtOk (expect_bytes e) := by
  apply extOk_pbind (extOk_read_bytes e.length)
  intro bs
  by_cases hbs : bs ≠ e
  · simp only [if_pos hbs]; exact extOk_perr _
  · simp only [if_neg hbs]; exact extOk_ppure _

theorem extOk_expect_u8 (e : Nat) : ExtOk (expect_u8 e) := by
  apply extOk_pbind extOk_read_u8
  intro b
  by_cases hb : b ≠ e
  · simp only [if_pos hb]; exact extOk_perr _
  · simp only [if_neg hb]; exact extOk_ppure _

theorem extOk_expect_u32 (e : Nat) : ExtOk (expect_u32 e) := by
  apply extOk_pbind extOk_read_u32
  intro v
  by_cases hv : v ≠ e
  · simp only [if_pos hv]; exact extOk_perr _
  · simp only [if_neg hv]; exact extOk_ppure _

theorem extOk_read_vlq_aux (fuel : Nat) :
    ∀ result, ExtOk (read_vlq_aux result fuel) := by
  induction fuel with
  | zero => intro result; exact extOk_perr _
  | succ n ih =>
    intro result
    show ExtOk (pbind read_u8 _)
    apply extOk_pbind extOk_read_u8
    intro byte
    dsimp only
    split
    · exact ih _
    · exact extOk_ppure _

theorem extOk_read_vlq : ExtOk read_vlq := extOk_read_vlq_aux 4 0

theorem extOk_read_data : ExtOk read_data :=
  extOk_pbind extOk_read_vlq (fun n => extOk_read_bytes n)

theorem extOk_read_text : ExtOk read_text :=
  extOk_pbind extOk_read_data (fun d => extOk_ppure (Text.mk d))

theorem extOk_read_action : ExtOk read_action := by
  apply extOk_pbind extOk_read_u8
  intro b
  split
  · exact extOk_ppure _
  · exact extOk_ppure _
  · exact extOk_perr _

theorem extOk_read_meta_event : ExtOk read_meta_event := by
  apply extOk_pbind extOk_read_u8
  intro mt
  split
  all_goals
    repeat
      first
      | exact extOk_read_u8
      | exact extOk_read_u16
      | exact extOk_read_u24
      | exact extOk_read_text
      | exact extOk_read_data
      | exact extOk_expect_u8 _
      | exact extOk_ppure _
      | apply extOk_pbind
      | intro _

theorem extOk_read_midi_event (sb : Nat) : ExtOk (read_midi_event sb) := by
  dsimp only [read_midi_event]
  apply extOk_pbind ?_ (fun kind => extOk_ppure _)
  split
  case h_4 => -- 0xb0: controller / channel-mode sub-dispatch
    apply extOk_pbind extOk_read_u7
    intro number
    split
    all_goals
      repeat
        first
        | exact extOk_read_u8
        | exact extOk_read_u7
        | exact extOk_read_action
        | exact extOk_expect_u8 _
        | exact extOk_ppure _
        | apply extOk_pbind
        | intro _
  all_goals
    first
    | exact extOk_ppanic
    | repeat
        first
        | exact extOk_read_u7
        | exact extOk_ppure _
        | apply extOk_pbind
        | intro _

theorem extOk_read_event : ExtOk read_event := by
  apply extOk_pbind (extOk_withCtx _ extOk_read_vlq)
  intro time
  apply extOk_pbind (extOk_withCtx _ extOk_read_u8)
  intro event_type
  apply extOk_pbind ?_ (fun kind => extOk_ppure _)
  split
  · exact extOk_withCtx _
      (extOk_pbind extOk_read_data (fun d => extOk_ppure _))
  · exact extOk_withCtx _
      (extOk_pbind extOk_read_data (fun d => extOk_ppure _))
  · exact extOk_withCtx _
      (extOk_pbind extOk_read_meta_event (fun m => extOk_ppure _))
  · exact extOk_withCtx _
      (extOk_pbind (extOk_read_midi_event event_type) (fun m => extOk_ppure _))

/-! ### Event-run and iterator lemmas -/

theorem eventRunB_spec {r : List Nat} (h : eventRunB r = true) :
    ∃ e, read_event r = .ok e [] := by
  unfold eventRunB at h
  split at h
  next e rest heq =>
    refine ⟨e, ?_⟩
    rwa [show rest = [] from by simpa using h] at heq
  next => exact absurd h (by simp)

theorem eventRunB_ne_nil {r : List Nat} (h : eventRunB r = true) : r ≠ [] := by
  intro hr
  subst hr
  exact absurd h (by decide)

theorem trackNext_run {r : List Nat} (h : eventRunB r = true) (rest : List Nat) :
    ∃ e, TrackChunk.next ⟨r ++ rest⟩ = (.some (.ok e), ⟨rest⟩) := by
  obtain ⟨e, he⟩ := eventRunB_spec h
  have hext : read_event (r ++ rest) = .ok e rest := by
    simpa using extOk_read_event r rest e [] he
  obtain ⟨a, r', rfl⟩ := List.exists_cons_of_ne_nil (eventRunB_ne_nil h)
  simp only [List.cons_append] at hext
  refine ⟨e, ?_⟩
  rw [TrackChunk.next]
  simp only [List.cons_append, List.isEmpty_cons, Bool.false_eq_true, if_false]
  rw [hext]

theorem trackRun_ok {rs : List (List Nat)} (h : ∀ r ∈ rs, eventRunB r = true) :
    ∀ fuel, rs.length < fuel →
      ∃ evs, TrackChunk.run fuel ⟨rs.flatten⟩ = .ok evs := by
  induction rs with
  | nil =>
    intro fuel hf
    obtain ⟨f, rfl⟩ : ∃ f, fuel = f + 1 := ⟨fuel - 1, by omega⟩
    exact ⟨[], by simp [TrackChunk.run, TrackChunk.next]⟩
  | cons r rs ih =>
    intro fuel hf
    obtain ⟨f, rfl⟩ : ∃ f, fuel = f + 1 := ⟨fuel - 1, by omega⟩
    obtain ⟨e, hnext⟩ := trackNext_run (h r (by simp)) rs.flatten
    obtain ⟨evs, hevs⟩ := ih (fun x hx => h x (by simp [hx])) f (by simp at hf; omega)
    refine ⟨e :: evs, ?_⟩
    rw [show ((r :: rs).flatten : List Nat) = r ++ rs.flatten from by simp]
    simp [TrackChunk.run, hnext, hevs]

theorem iterNext_chunk {p : List Nat} (hp : p.length < 2 ^ 32)
    (rest : List Nat) (n : Nat) :
    TrackChunkIter.next ⟨chunkBytes p ++ rest, n + 1⟩ =
      (.some (.ok ⟨p⟩), ⟨rest, n⟩) := by
  rw [TrackChunkIter.next]
  simp only [if_neg (by omega : ¬(n + 1 = 0))]
  rw [read_track_chunk_enc hp rest]
  simp

theorem iterRun_ok {ps : List (List Nat)} (h : ∀ p ∈ ps, p.length < 2 ^ 32) :
    ∀ fuel, ps.length < fuel →
      TrackChunkIter.run fuel ⟨(ps.map chunkBytes).flatten, ps.length⟩ =
        .ok (ps.map TrackChunk.mk) := by
  induction ps with
  | nil =>
    intro fuel hf
    obtain ⟨f, rfl⟩ : ∃ f, fuel = f + 1 := ⟨fuel - 1, by omega⟩
    simp [TrackChunkIter.run, TrackChunkIter.next]
  | cons p ps ih =>
    intro fuel hf
    obtain ⟨f, rfl⟩ : ∃ f, fuel = f + 1 := ⟨fuel - 1, by omega⟩
    have hflat : ((p :: ps).map chunkBytes).flatten =
        chunkBytes p ++ (ps.map chunkBytes).flatten := by simp
    have hnext := iterNext_chunk (h p (by simp)) (ps.map chunkBytes).flatten ps.length
    have hrec := ih (fun x hx => h x (by simp [hx])) f (by simp at hf; omega)
    rw [show ((p :: ps).length : Nat) = ps.length + 1 from by simp, hflat]
    simp [TrackChunkIter.run, hnext, hrec]

theorem iterRun_trailing {ps : List (List Nat)} (h : ∀ p ∈ ps, p.length < 2 ^ 32)
    {extra : List Nat} (hx : extra ≠ []) :
    ∀ fuel, ps.length < fuel →
      TrackChunkIter.run fuel ⟨(ps.map chunkBytes).flatten ++ extra, ps.length⟩ =
        .err ⟨"TrackChunkIter::next: undread data left", .Invalid⟩ := by
  induction ps with
  | nil =>
    intro fuel hf
    obtain ⟨f, rfl⟩ : ∃ f, fuel = f + 1 := ⟨fuel - 1, by omega⟩
    have hne : ¬(([] : List (List Nat)).map chunkBytes).flatten ++ extra = [] := by
      simpa using hx
    simp only [List.map_nil, List.flatten_nil, List.nil_append] at hne ⊢
    rw [TrackChunkIter.run, TrackChunkIter.next]
    simp [List.isEmpty_iff, hne]
  | cons p ps ih =>
    intro fuel hf
    obtain ⟨f, rfl⟩ : ∃ f, fuel = f + 1 := ⟨fuel - 1, by omega⟩
    have hflat : (((p :: ps).map chunkBytes).flatten ++ extra : List Nat) =
        chunkBytes p ++ ((ps.map chunkBytes).flatten ++ extra) := by simp
    have hnext := iterNext_chunk (h p (by simp))
      ((ps.map chunkBytes).flatten ++ extra) ps.length
    have hrec := ih (fun x hx' => h x (by simp [hx'])) f (by simp at hf; omega)
    rw [show ((p :: ps).length : Nat) = ps.length + 1 from by simp, hflat]
    simp [TrackChunkIter.run, hnext, hrec]

theorem collect_ok {ts : List (List (List Nat))}
    (h : ∀ t ∈ ts, t.flatten.length < 2 ^ 32 ∧ ∀ r ∈ t, eventRunB r = true)
    {ef : Nat} (hef : ∀ t ∈ ts, t.length < ef) :
    ∀ cf, ts.length < cf →
      ∃ out, collectTracks cf ef
        ⟨(ts.map (fun t => chunkBytes t.flatten)).flatten, ts.length⟩ = .ok out := by
  induction ts with
  | nil =>
    intro cf hcf
    obtain ⟨c, rfl⟩ : ∃ c, cf = c + 1 := ⟨cf - 1, by omega⟩
    exact ⟨[], by simp [collectTracks, TrackChunkIter.next]⟩
  | cons t ts ih =>
    intro cf hcf
    obtain ⟨c, rfl⟩ : ∃ c, cf = c + 1 := ⟨cf - 1, by omega⟩
    have hflat : ((t :: ts).map (fun t => chunkBytes t.flatten)).flatten =
        chunkBytes t.flatten ++ (ts.map (fun t => chunkBytes t.flatten)).flatten := by
      simp
    have hnext := iterNext_chunk (h t (by simp)).1
      ((ts.map (fun t => chunkBytes t.flatten)).flatten) ts.length
    obtain ⟨evs, hevs⟩ := trackRun_ok (h t (by simp)).2 ef (hef t (by simp))
    obtain ⟨out, hout⟩ := ih (fun x hx => h x (by simp [hx]))
      (fun x hx => hef x (by simp [hx])) c (by simp at hcf; omega)
    refine ⟨evs :: out, ?_⟩
    rw [show (((t :: ts).length : Nat)) = ts.length + 1 from by simp, hflat]
    simp [collectTracks, hnext, hevs, hout]

theorem collect_err {ts : List (List (List Nat))}
    (h : ∀ t ∈ ts, t.flatten.length < 2 ^ 32 ∧ ∀ r ∈ t, eventRunB r = true)
    {bad : List Nat} {e : Error} {s' : List Nat}
    (hbad : read_track_chunk bad = .err e s')
    {ef : Nat} (hef : ∀ t ∈ ts, t.length < ef) :
    ∀ cf, ts.length < cf →
      collectTracks cf ef
        ⟨(ts.map (fun t => chunkBytes t.flatten)).flatten ++ bad, ts.length + 1⟩ =
        .err e := by
  induction ts with
  | nil =>
    intro cf hcf
    obtain ⟨c, rfl⟩ : ∃ c, cf = c + 1 := ⟨cf - 1, by omega⟩
    have hnext : TrackChunkIter.next ⟨bad, 1⟩ = (.some (.error e), ⟨s', 0⟩) := by
      rw [TrackChunkIter.next]
      simp only [if_neg (by omega : ¬(1 = 0))]
      rw [hbad]
    simp only [List.map_nil, List.flatten_nil, List.nil_append, List.length_nil]
    simp [collectTracks, hnext]
  | cons t ts ih =>
    intro cf hcf
    obtain ⟨c, rfl⟩ : ∃ c, cf = c + 1 := ⟨cf - 1, by omega⟩
    have hflat : ((t :: ts).map (fun t => chunkBytes t.flatten)).flatten ++ bad =
        chunkBytes t.flatten ++
          ((ts.map (fun t => chunkBytes t.flatten)).flatten ++ bad) := by
      simp
    have hnext := iterNext_chunk (h t (by simp)).1
      ((ts.map (fun t => chunkBytes t.flatten)).flatten ++ bad) (ts.length + 1)
    obtain ⟨evs, hevs⟩ := trackRun_ok (h t (by simp)).2 ef (hef t (by simp))
    have hrec := ih (fun x hx => h x (by simp [hx]))
      (fun x hx => hef x (by simp [hx])) c (by simp at hcf; omega)
    rw [show (((t :: ts).length : Nat)) = ts.length + 1 from by simp, hflat]
    simp [collectTracks, hnext, hevs, hrec]

/-! ### Claims -/

/-- Claim C3: `read_vlq` decodes a base-128 MSB-first variable-length
quantity — each byte contributes its low 7 bits, continuing while the high
bit is set — and maps the six table inputs to the stated values, consuming
exactly the listed bytes. -/
theorem C3_vlq_decode :
    (∀ b0 t, b0 < 128 → read_vlq (b0 :: t) = .ok b0 t) ∧
    (∀ b0 b1 t, 128 ≤ b0 → b0 < 256 → b1 < 128 →
      read_vlq (b0 :: b1 :: t) = .ok (b0 % 128 * 128 + b1) t) ∧
    (∀ b0 b1 b2 t, 128 ≤ b0 → b0 < 256 → 128 ≤ b1 → b1 < 256 → b2 < 128 →
      read_vlq (b0 :: b1 :: b2 :: t) =
        .ok ((b0 % 128 * 128 + b1 % 128) * 128 + b2) t) ∧
    (∀ b0 b1 b2 b3 t, 128 ≤ b0 → b0 < 256 → 128 ≤ b1 → b1 < 256 →
      128 ≤ b2 → b2 < 256 → b3 < 128 →
      read_vlq (b0 :: b1 :: b2 :: b3 :: t) =
        .ok (((b0 % 128 * 128 + b1 % 128) * 128 + b2 % 128) * 128 + b3) t) ∧
    read_vlq [0x00] = .ok 0 [] ∧
    read_vlq [0x7f] = .ok 0x7f [] ∧
    read_vlq [0x81, 0x00] = .ok 0x80 [] ∧
    read_vlq [0xff, 0x7f] = .ok 0x3fff [] ∧
    read_vlq [0x87, 0x68] = .ok 0x3e8 [] ∧
    read_vlq [0xbd, 0x84, 0x40] = .ok 0xf4240 [] :=
  ⟨fun _ t h0 => read_vlq_ok1 h0 t,
   fun _ _ t h0 h0' h1 => read_vlq_ok2 h0 h0' h1 t,
   fun _ _ _ t h0 h0' h1 h1' h2 => read_vlq_ok3 h0 h0' h1 h1' h2 t,
   fun _ _ _ _ t h0 h0' h1 h1' h2 h2' h3 =>
     read_vlq_ok4 h0 h0' h1 h1' h2 h2' h3 t,
   by decide, by decide, by decide, by decide, by decide, by decide⟩

/-- Witness for C3 at a concrete input: `[0x85, 0x05]` decodes to
`5 * 128 + 5 = 645` and the trailing byte survives. -/
theorem C3_vlq_decode_witness : read_vlq [0x85, 0x05, 9] = .ok 645 [9] := by
  have := C3_vlq_decode.2.1 0x85 0x05 [9] (by decide) (by decide) (by decide)
  simpa using this

/-- Claim C4: `read_vlq` fails with `Invalid` whenever the first four input
bytes all have their continuation bit set (consuming exactly those four
bytes), and succeeds on every 1–4 byte encoding fully present in the
input. -/
theorem C4_vlq_limits :
    (∀ b0 b1 b2 b3 rest, 128 ≤ b0 → b0 < 256 → 128 ≤ b1 → b1 < 256 →
      128 ≤ b2 → b2 < 256 → 128 ≤ b3 → b3 < 256 →
      read_vlq (b0 :: b1 :: b2 :: b3 :: rest) = .err .Invalid rest) ∧
    (∀ b0 t, b0 < 128 → ∃ v, read_vlq (b0 :: t) = .ok v t) ∧
    (∀ b0 b1 t, 128 ≤ b0 → b0 < 256 → b1 < 128 →
      ∃ v, read_vlq (b0 :: b1 :: t) = .ok v t) ∧
    (∀ b0 b1 b2 t, 128 ≤ b0 → b0 < 256 → 128 ≤ b1 → b1 < 256 → b2 < 128 →
      ∃ v, read_vlq (b0 :: b1 :: b2 :: t) = .ok v t) ∧
    (∀ b0 b1 b2 b3 t, 128 ≤ b0 → b0 < 256 → 128 ≤ b1 → b1 < 256 →
      128 ≤ b2 → b2 < 256 → b3 < 128 →
      ∃ v, read_vlq (b0 :: b1 :: b2 :: b3 :: t) = .ok v t) :=
  ⟨fun _ _ _ _ rest h0 h0' h1 h1' h2 h2' h3 h3' =>
     read_vlq_cont4 h0 h0' h1 h1' h2 h2' h3 h3' rest,
   fun _ t h0 => ⟨_, read_vlq_ok1 h0 t⟩,
   fun _ _ t h0 h0' h1 => ⟨_, read_vlq_ok2 h0 h0' h1 t⟩,
   fun _ _ _ t h0 h0' h1 h1' h2 => ⟨_, read_vlq_ok3 h0 h0' h1 h1' h2 t⟩,
   fun _ _ _ _ t h0 h0' h1 h1' h2 h2' h3 =>
     ⟨_, read_vlq_ok4 h0 h0' h1 h1' h2 h2' h3 t⟩⟩

/-- Witness for C4 at a concrete input: four continuation bytes `0xFF` make
`read_vlq` fail with `Invalid`, leaving the fifth byte unread. -/
theorem C4_vlq_limits_witness :
    read_vlq [0xff, 0xff, 0xff, 0xff, 0x7f] = .err .Invalid [0x7f] :=
  C4_vlq_limits.1 0xff 0xff 0xff 0xff [0x7f] (by decide) (by decide)
    (by decide) (by decide) (by decide) (by decide) (by decide) (by decide)

/-- Claim C5: `read_header_chunk` expects the literal `MThd`, a declared
length equal to 6 (`Invalid` otherwise), a format u16 mapped
`0→Single, 1→MultiTrack, 2→MultiSequence` (`Invalid` otherwise), then track
count and division as u16; the 14-byte table input decodes to
`MultiTrack / 3 tracks / division 1024`, consuming exactly those bytes. -/
theorem C5_header_chunk :
    read_header_chunk [77, 84, 104, 100, 0, 0, 0, 6, 0, 1, 0, 3, 4, 0] =
      .ok ⟨.MultiTrack, 3, 1024⟩ [] ∧
    formatOf 0 = .Single ∧ formatOf 1 = .MultiTrack ∧
    formatOf 2 = .MultiSequence ∧
    (∀ f n d t, f < 3 → n < 2 ^ 16 → d < 2 ^ 16 →
      read_header_chunk (headerBytes f n d ++ t) = .ok ⟨formatOf f, n, d⟩ t) ∧
    (∀ len t, len < 2 ^ 32 → len ≠ 6 →
      read_header_chunk ([77, 84, 104, 100] ++ (u32be len ++ t)) =
        .err ⟨"read_header_chunk: header data length should be 6", .Invalid⟩ t) ∧
    (∀ v t, 3 ≤ v → v < 2 ^ 16 →
      read_header_chunk ([77, 84, 104, 100, 0, 0, 0, 6] ++ (u16be v ++ t)) =
        .err ⟨"read_header_chunk: header must specify format", .Invalid⟩ t) := by
  refine ⟨by decide, rfl, rfl, rfl,
    fun f n d t hf hn hd => read_header_chunk_enc hf hn hd t, ?_, ?_⟩
  · intro len t hlen hne
    rw [read_header_chunk,
      pbind_ok (withCtx_ok (expect_bytes_exact [77, 84, 104, 100] _)),
      pbind_err (withCtx_err (expect_u32_ne hlen hne t))]
  · intro v t hv hv'
    have hsh : ([77, 84, 104, 100, 0, 0, 0, 6] ++ (u16be v ++ t) : List Nat) =
        [77, 84, 104, 100] ++ (u32be 6 ++ (u16be v ++ t)) := by
      have h6 : (u32be 6 : List Nat) = [0, 0, 0, 6] := by decide
      simp [h6]
    rw [hsh, read_header_chunk,
      pbind_ok (withCtx_ok (expect_bytes_exact [77, 84, 104, 100] _)),
      pbind_ok (withCtx_ok (expect_u32_eq (by norm_num) _)),
      pbind_err (withCtx_err (read_format_bad hv hv' t))]

/-- Witness for C5 at concrete inputs: a well-formed header with format 2
decodes to `MultiSequence`, and a declared length of 7 is rejected as
`Invalid`. -/
theorem C5_header_chunk_witness :
    read_header_chunk (headerBytes 2 1 2 ++ [9]) =
      .ok ⟨.MultiSequence, 1, 2⟩ [9] ∧
    read_header_chunk ([77, 84, 104, 100] ++ (u32be 7 ++ [9])) =
      .err ⟨"read_header_chunk: header data length should be 6", .Invalid⟩ [9] :=
  ⟨C5_header_chunk.2.2.2.2.1 2 1 2 [9] (by decide) (by decide) (by decide),
   C5_header_chunk.2.2.2.2.2.1 7 [9] (by decide) (by decide)⟩

/-- Claim C8: a meta event whose type byte is outside the fixed dispatch
table decodes to `Unknown{meta_type, data}` with a VLQ-length-prefixed
payload, without error; in particular meta type `0x10`. -/
theorem C8_unknown_meta :
    (∀ mt d t, ¬(mt ≤ 0x07 ∨ mt = 0x20 ∨ mt = 0x2f ∨ mt = 0x51 ∨
        mt = 0x54 ∨ mt = 0x58 ∨ mt = 0x59 ∨ mt = 0x7f) →
      d.length < 128 →
      read_meta_event (mt :: d.length :: (d ++ t)) = .ok (.Unknown mt d) t) ∧
    read_meta_event [0x10, 2, 5, 6] = .ok (.Unknown 0x10 [5, 6]) [] ∧
    read_event [0, 0xff, 0x10, 2, 5, 6] =
      .ok ⟨.Meta (.Unknown 0x10 [5, 6]), 0⟩ [] := by
  refine ⟨?_, by decide, by decide⟩
  intro mt d t hmt hlen
  rw [read_meta_event, pbind_ok (read_u8_cons mt (d.length :: (d ++ t)))]
  have hdata : read_data (d.length :: (d ++ t)) = .ok d t := by
    rw [read_data, pbind_ok (read_vlq_ok1 hlen (d ++ t))]
    exact read_bytes_exact t
  split
  all_goals first
    | (exfalso; omega)
    | (rw [pbind_ok hdata]; rfl)

/-- Witness for C8 at a concrete input: meta type `0x11` with a 1-byte
payload decodes to `Unknown`. -/
theorem C8_unknown_meta_witness :
    read_meta_event [0x11, 1, 7, 9] = .ok (.Unknown 0x11 [7]) [9] := by
  have := C8_unknown_meta.1 0x11 [7] [9] (by decide) (by decide)
  simpa using this

/-- Claim C7: for channel-voice events whose data bytes must be 7-bit
(NoteOff, NoteOn, PolyphonicKeyPressure, generic ControllerChange,
ProgramChange, ChannelKeyPressure, PitchBend), a data byte with its high
bit set makes decoding fail with `Invalid`; in particular a NoteOn whose
key or velocity byte is `0x80` or above makes `read_event` fail with
`Invalid`. -/
theorem C7_seven_bit_rejection :
    (∀ sb k t, (sb &&& 0xf0 = 0x80 ∨ sb &&& 0xf0 = 0x90 ∨
        sb &&& 0xf0 = 0xa0 ∨ sb &&& 0xf0 = 0xe0) → 128 ≤ k →
      read_midi_event sb (k :: t) = .err .Invalid t) ∧
    (∀ sb k v t, (sb &&& 0xf0 = 0x80 ∨ sb &&& 0xf0 = 0x90 ∨
        sb &&& 0xf0 = 0xa0 ∨ sb &&& 0xf0 = 0xe0) → k < 128 → 128 ≤ v →
      read_midi_event sb (k :: v :: t) = .err .Invalid t) ∧
    (∀ sb n t, sb &&& 0xf0 = 0xb0 → 128 ≤ n →
      read_midi_event sb (n :: t) = .err .Invalid t) ∧
    (∀ sb n v t, sb &&& 0xf0 = 0xb0 → n < 0x78 → 128 ≤ v →
      read_midi_event sb (n :: v :: t) = .err .Invalid t) ∧
    (∀ sb k t, (sb &&& 0xf0 = 0xc0 ∨ sb &&& 0xf0 = 0xd0) → 128 ≤ k →
      read_midi_event sb (k :: t) = .err .Invalid t) ∧
    (∀ k v t, 128 ≤ k →
      read_event (0 :: 0x90 :: k :: v :: t) =
        .err ⟨"read_event: failed to read midi event", .Invalid⟩ (v :: t)) ∧
    (∀ k v t, k < 128 → 128 ≤ v →
      read_event (0 :: 0x90 :: k :: v :: t) =
        .err ⟨"read_event: failed to read midi event", .Invalid⟩ t) := by
  refine ⟨?_, ?_, ?_, ?_, ?_, ?_, ?_⟩
  · intro sb k t hst hk
    dsimp only [read_midi_event]
    split
    all_goals try (exfalso; rcases hst with h | h | h | h <;>
      first | omega | exact absurd h (by assumption))
    all_goals exact pbind_err (pbind_err (read_u7_hi hk t))
  · intro sb k v t hst hk hv
    dsimp only [read_midi_event]
    split
    all_goals try (exfalso; rcases hst with h | h | h | h <;>
      first | omega | exact absurd h (by assumption))
    all_goals
      exact pbind_err (by
        rw [pbind_ok (read_u7_lo (by omega) (v :: t)),
          pbind_err (read_u7_hi hv t)])
  · intro sb n t hst hn
    dsimp only [read_midi_event]
    split
    all_goals try (exfalso; first | omega | exact absurd hst (by assumption))
    exact pbind_err (pbind_err (read_u7_hi hn t))
  · intro sb n v t hst hn hv
    dsimp only [read_midi_event]
    split
    all_goals try (exfalso; first | omega | exact absurd hst (by assumption))
    refine pbind_err ?_
    rw [pbind_ok (read_u7_lo (by omega) (v :: t))]
    split
    all_goals try (exfalso; omega)
    exact pbind_err (read_u7_hi hv t)
  · intro sb k t hst hk
    dsimp only [read_midi_event]
    split
    all_goals try (exfalso; rcases hst with h | h <;>
      first | omega | exact absurd h (by assumption))
    all_goals exact pbind_err (pbind_err (read_u7_hi hk t))
  · intro k v t hk
    rw [read_event, pbind_ok (withCtx_ok (read_vlq_ok1 (by norm_num) _)),
      pbind_ok (withCtx_ok (read_u8_cons 0x90 _))]
    exact pbind_err (withCtx_err (pbind_err
      (pbind_err (pbind_err (read_u7_hi hk (v :: t))))))
  · intro k v t hk hv
    rw [read_event, pbind_ok (withCtx_ok (read_vlq_ok1 (by norm_num) _)),
      pbind_ok (withCtx_ok (read_u8_cons 0x90 _))]
    have h1 : read_u7 (k :: v :: t) = .ok k (v :: t) := read_u7_lo (by omega) (v :: t)
    have h2 : read_u7 (v :: t) = .err .Invalid t := read_u7_hi hv t
    have h4 : pbind read_u7 (fun key => pbind read_u7 (fun velocity =>
        ppure (MidiEventKind.NoteOn key velocity))) (k :: v :: t) =
        .err .Invalid t := by
      rw [pbind_ok h1]; exact pbind_err h2
    exact pbind_err (withCtx_err (pbind_err (pbind_err h4)))

/-- Witness for C7 at a concrete input: a NoteOn whose key byte is `0x80`
fails with `Invalid`. -/
theorem C7_seven_bit_rejection_witness :
    read_event [0, 0x90, 0x80, 64] =
      .err ⟨"read_event: failed to read midi event", .Invalid⟩ [64] :=
  C7_seven_bit_rejection.2.2.2.2.2.1 0x80 64 [] (by decide)

/-- Claim C9: `read_event` is not total — an event-type byte in `0x00–0x7F`
or `0xF1–0xF6` / `0xF8–0xFE` sends `read_midi_event` into its
`unimplemented!()` branch, which panics instead of returning a `Result`. -/
theorem C9_unhandled_status_panics :
    ∀ et, (et < 0x80 ∨ (0xf1 ≤ et ∧ et ≤ 0xf6) ∨ (0xf8 ≤ et ∧ et ≤ 0xfe)) →
      (∀ s, read_midi_event et s = .panicked) ∧
      (∀ t, read_event (0 :: et :: t) = .panicked) := by
  intro et het
  have hmid : ∀ s, read_midi_event et s = .panicked := by
    intro s
    rcases het with h | h | h
    · dsimp only [read_midi_event]
      split
      all_goals first
        | (exfalso; have hle : et &&& 240 ≤ et := Nat.and_le_left; omega)
        | rfl
    · obtain ⟨h1, h2⟩ := h; interval_cases et <;> rfl
    · obtain ⟨h1, h2⟩ := h; interval_cases et <;> rfl
  refine ⟨hmid, ?_⟩
  intro t
  rw [read_event, pbind_ok (withCtx_ok (read_vlq_ok1 (by norm_num) _)),
    pbind_ok (withCtx_ok (read_u8_cons et t))]
  split
  · exfalso; omega
  · exfalso; omega
  · exfalso; omega
  · exact pbind_panicked (withCtx_panicked (pbind_panicked (hmid t)))

/-- Witness for C9 at concrete inputs: status byte `0x50` panics in
`read_midi_event`, and event type `0xF8` panics in `read_event`. -/
theorem C9_unhandled_status_panics_witness :
    read_midi_event 0x50 [3, 4] = .panicked ∧
    read_event [0, 0xf8] = .panicked :=
  ⟨(C9_unhandled_status_panics 0x50 (by decide)).1 [3, 4],
   (C9_unhandled_status_panics 0xf8 (by decide)).2 []⟩

/-- Claim C6: the track-chunk iterator yields exactly the declared number
of `Ok` chunks from a buffer holding that many well-formed chunks and then
ends; with one extra well-formed chunk in the buffer, the step after the
declared count returns an `Invalid` "undread data left" error instead of
yielding more data or ending silently. -/
theorem C6_track_count_enforcement :
    (∀ (n : Nat) (ps : List (List Nat)), (∀ p ∈ ps, p.length < 2 ^ 32) →
      ps.length = n →
      TrackChunkIter.run (n + 1) ⟨(ps.map chunkBytes).flatten, n⟩ =
        .ok (ps.map TrackChunk.mk)) ∧
    (∀ (n : Nat) (ps : List (List Nat)), (∀ p ∈ ps, p.length < 2 ^ 32) →
      ps.length = n + 1 →
      TrackChunkIter.run (n + 1) ⟨(ps.map chunkBytes).flatten, n⟩ =
        .err ⟨"TrackChunkIter::next: undread data left", .Invalid⟩) := by
  constructor
  · intro n ps h hlen
    subst hlen
    exact iterRun_ok h (ps.length + 1) (by omega)
  · intro n ps h hlen
    rcases List.eq_nil_or_concat ps with rfl | ⟨ps₀, q, rfl⟩
    · simp at hlen
    · rw [List.concat_eq_append] at hlen h ⊢
      have hn : ps₀.length = n := by simp at hlen; omega
      have hflat : ((ps₀ ++ [q]).map chunkBytes).flatten =
          (ps₀.map chunkBytes).flatten ++ chunkBytes q := by simp
      have hq : chunkBytes q ≠ [] := by simp [chunkBytes]
      subst hn
      rw [hflat]
      exact iterRun_trailing (fun p hp => h p (by simp [hp])) hq
        (ps₀.length + 1) (by omega)

/-- Witness for C6 at concrete inputs: one declared track with one chunk
present iterates cleanly; one declared track with two chunks present fails
with the undread-data error. -/
theorem C6_track_count_enforcement_witness :
    TrackChunkIter.run 2 ⟨([[5], [9]].map chunkBytes).flatten, 1⟩ =
      .err ⟨"TrackChunkIter::next: undread data left", .Invalid⟩ ∧
    TrackChunkIter.run 2 ⟨([[5]].map chunkBytes).flatten, 1⟩ =
      .ok [⟨[5]⟩] :=
  ⟨C6_track_count_enforcement.2 1 [[5], [9]] (by decide) (by decide),
   C6_track_count_enforcement.1 1 [[5]] (by decide) (by decide)⟩

/-- Claim C10: once the countdown is zero and undecoded bytes remain, the
track-chunk iterator is stuck: every subsequent `next` call returns the
same `Some(Err)` with the Invalid undread-data error, the state never
changes, and the iterator never returns `None`. -/
theorem C10_trailing_error_sticky (it : TrackChunkIter) (h0 : it.tracks = 0)
    (hne : it.data ≠ []) :
    ∀ n, stepIter^[n] it = it ∧
      TrackChunkIter.next (stepIter^[n] it) =
        (.some (.error ⟨"TrackChunkIter::next: undread data left", .Invalid⟩),
          it) := by
  have hstep : TrackChunkIter.next it =
      (.some (.error ⟨"TrackChunkIter::next: undread data left", .Invalid⟩),
        it) := by
    rw [TrackChunkIter.next]
    have : ¬it.data.isEmpty := by simpa [List.isEmpty_iff] using hne
    simp [h0, this]
  intro n
  induction n with
  | zero => exact ⟨rfl, hstep⟩
  | succ m ih =>
    have hiter : stepIter^[m + 1] it = it := by
      rw [Function.iterate_succ_apply', ih.1, stepIter, hstep]
    exact ⟨hiter, by rw [hiter, hstep]⟩

/-- Witness for C10 at a concrete input: with countdown 0 and one byte
left, two iterations later `next` still returns the same error and the
same state. -/
theorem C10_trailing_error_sticky_witness :
    stepIter^[2] ⟨[7], 0⟩ = ⟨[7], 0⟩ ∧
    TrackChunkIter.next (stepIter^[2] ⟨[7], 0⟩) =
      (.some (.error ⟨"TrackChunkIter::next: undread data left", .Invalid⟩),
        ⟨[7], 0⟩) :=
  C10_trailing_error_sticky ⟨[7], 0⟩ rfl (by decide) 2

/-- Claim C1: for every well-formed SMF buffer, `SmfReader::new` succeeds,
the track-chunk iterator yields exactly the declared number of `Ok` chunks
and then `None`, each chunk's event iterator yields only `Ok` events until
the chunk span is empty, and the full decode consumes every byte with no
error anywhere. -/
theorem C1_wellformed_roundtrip (sh : SmfShape) (h : sh.WF) :
    ∃ rdr, SmfReader.new sh.bytes =
        .ok rdr ((sh.tracks.map (fun t => chunkBytes t.flatten)).flatten) ∧
      rdr.header = ⟨formatOf sh.format, sh.tracks.length, sh.division⟩ ∧
      TrackChunkIter.run (sh.tracks.length + 1) rdr.trackChunkIter =
        .ok (sh.tracks.map (fun t => TrackChunk.mk t.flatten)) ∧
      (∀ t ∈ sh.tracks, ∃ evs,
        TrackChunk.run (t.length + 1) (TrackChunk.mk t.flatten) = .ok evs) ∧
      (∃ out, Smf.read (sh.tracks.length + 1) sh.evFuel sh.bytes =
        .ok ⟨formatOf sh.format, out, sh.division⟩) := by
  obtain ⟨hf, hd, hn, htr, -⟩ := h
  have hhdr : read_header_chunk sh.bytes =
      .ok ⟨formatOf sh.format, sh.tracks.length, sh.division⟩
        ((sh.tracks.map (fun t => chunkBytes t.flatten)).flatten) :=
    read_header_chunk_enc hf hn hd _
  have hnew : SmfReader.new sh.bytes =
      .ok ⟨⟨formatOf sh.format, sh.tracks.length, sh.division⟩,
        ((sh.tracks.map (fun t => chunkBytes t.flatten)).flatten)⟩
        ((sh.tracks.map (fun t => chunkBytes t.flatten)).flatten) := by
    rw [SmfReader.new, hhdr]
  have hef : ∀ t ∈ sh.tracks, t.length < sh.evFuel := by
    intro t ht
    have : t.length ≤ (sh.tracks.map List.length).foldr max 0 :=
      le_foldr_max (List.mem_map_of_mem _ ht)
    have hev : sh.evFuel = (sh.tracks.map List.length).foldr max 0 + 1 := rfl
    omega
  refine ⟨⟨⟨formatOf sh.format, sh.tracks.length, sh.division⟩,
    ((sh.tracks.map (fun t => chunkBytes t.flatten)).flatten)⟩,
    hnew, rfl, ?_, ?_, ?_⟩
  · have hlens : ∀ p ∈ sh.tracks.map (fun t => t.flatten), p.length < 2 ^ 32 := by
      intro p hp
      obtain ⟨t, ht, rfl⟩ := List.mem_map.mp hp
      exact (htr t ht).1
    have := iterRun_ok hlens (sh.tracks.length + 1) (by simp)
    simpa [SmfReader.trackChunkIter, List.map_map, Function.comp] using this
  · intro t ht
    exact trackRun_ok (htr t ht).2 (t.length + 1) (by omega)
  · obtain ⟨out, hout⟩ := collect_ok htr hef (sh.tracks.length + 1) (by omega)
    refine ⟨out, ?_⟩
    simp only [Smf.read]
    rw [hnew]
    simp only [SmfReader.trackChunkIter]
    rw [hout]

/-- Witness for C1: the concrete shape `sampleShapeA` is well-formed and
its buffer decodes fully with no error. -/
theorem C1_wellformed_roundtrip_witness :
    sampleShapeA.WF ∧
    (∃ rdr, SmfReader.new sampleShapeA.bytes =
        .ok rdr ((sampleShapeA.tracks.map (fun t => chunkBytes t.flatten)).flatten) ∧
      rdr.header = ⟨formatOf sampleShapeA.format, sampleShapeA.tracks.length,
        sampleShapeA.division⟩ ∧
      TrackChunkIter.run (sampleShapeA.tracks.length + 1) rdr.trackChunkIter =
        .ok (sampleShapeA.tracks.map (fun t => TrackChunk.mk t.flatten)) ∧
      (∀ t ∈ sampleShapeA.tracks, ∃ evs,
        TrackChunk.run (t.length + 1) (TrackChunk.mk t.flatten) = .ok evs) ∧
      (∃ out, Smf.read (sampleShapeA.tracks.length + 1) sampleShapeA.evFuel
          sampleShapeA.bytes =
        .ok ⟨formatOf sampleShapeA.format, out, sampleShapeA.division⟩)) :=
  ⟨by simp only [SmfShape.WF]; decide,
   C1_wellformed_roundtrip sampleShapeA (by simp only [SmfShape.WF]; decide)⟩

/-- Claim C2: for any well-formed SMF buffer with its final byte removed,
the full decode terminates with an error of kind `Fatal` or `Invalid` and
never panics. -/
theorem C2_truncation_fails (sh : SmfShape) (h : sh.WF) :
    ∃ e, Smf.read (sh.tracks.length + 1) sh.evFuel sh.bytes.dropLast =
        .err e ∧ (e.kind = .Fatal ∨ e.kind = .Invalid) := by
  obtain ⟨hf, hd, hn, htr, -⟩ := h
  rcases List.eq_nil_or_concat sh.tracks with hnil | ⟨ts₀, tl, hcat⟩
  · -- no tracks: the truncation hits the header's division field
    have hbytes0 : sh.bytes = headerBytes sh.format sh.tracks.length sh.division := by
      simp [SmfShape.bytes, hnil]
    have hhdr := read_header_chunk_dropLast
      (f := sh.format) (n := sh.tracks.length) (d := sh.division) hf hn
    refine ⟨⟨"read_header_chunk: header must specify division", .Fatal⟩, ?_,
      Or.inl rfl⟩
    simp only [Smf.read, SmfReader.new, hbytes0, hhdr]
  · rw [List.concat_eq_append] at hcat
    have hmem : ∀ t ∈ ts₀, t ∈ sh.tracks := by
      intro t ht; rw [hcat]; simp [ht]
    have htl : tl ∈ sh.tracks := by rw [hcat]; simp
    have hlen_tl : tl.flatten.length < 2 ^ 32 := (htr tl htl).1
    obtain ⟨c, s', hbad⟩ := read_track_chunk_dropLast hlen_tl
    have hcb : chunkBytes tl.flatten ≠ [] := by simp [chunkBytes]
    have hb : sh.bytes =
        headerBytes sh.format sh.tracks.length sh.division ++
          ((ts₀.map (fun t => chunkBytes t.flatten)).flatten ++
            chunkBytes tl.flatten) := by
      conv_lhs => rw [SmfShape.bytes]
      rw [show (sh.tracks.map (fun t => chunkBytes t.flatten)).flatten =
          (ts₀.map (fun t => chunkBytes t.flatten)).flatten ++
            chunkBytes tl.flatten from by rw [hcat]; simp]
    have hb2 : sh.bytes.dropLast =
        headerBytes sh.format sh.tracks.length sh.division ++
          ((ts₀.map (fun t => chunkBytes t.flatten)).flatten ++
            (chunkBytes tl.flatten).dropLast) := by
      rw [hb, List.dropLast_append_of_ne_nil _ (by simp [hcb]),
        List.dropLast_append_of_ne_nil _ hcb]
    have hhdr : read_header_chunk sh.bytes.dropLast =
        .ok ⟨formatOf sh.format, sh.tracks.length, sh.division⟩
          ((ts₀.map (fun t => chunkBytes t.flatten)).flatten ++
            (chunkBytes tl.flatten).dropLast) := by
      rw [hb2]; exact read_header_chunk_enc hf hn hd _
    have hnew : SmfReader.new sh.bytes.dropLast =
        .ok ⟨⟨formatOf sh.format, sh.tracks.length, sh.division⟩,
          ((ts₀.map (fun t => chunkBytes t.flatten)).flatten ++
            (chunkBytes tl.flatten).dropLast)⟩
          ((ts₀.map (fun t => chunkBytes t.flatten)).flatten ++
            (chunkBytes tl.flatten).dropLast) := by
      rw [SmfReader.new, hhdr]
    have hef : ∀ t ∈ ts₀, t.length < sh.evFuel := by
      intro t ht
      have : t.length ≤ (sh.tracks.map List.length).foldr max 0 :=
        le_foldr_max (List.mem_map_of_mem _ (hmem t ht))
      have hev : sh.evFuel = (sh.tracks.map List.length).foldr max 0 + 1 := rfl
      omega
    have hlen : sh.tracks.length = ts₀.length + 1 := by rw [hcat]; simp
    have hcoll := collect_err (fun t ht => htr t (hmem t ht)) hbad hef
      (sh.tracks.length + 1) (by omega)
    refine ⟨⟨c, .Fatal⟩, ?_, Or.inl rfl⟩
    simp only [Smf.read]
    rw [hnew]
    simp only [SmfReader.trackChunkIter]
    rw [show (⟨((ts₀.map (fun t => chunkBytes t.flatten)).flatten ++
          (chunkBytes tl.flatten).dropLast), sh.tracks.length⟩ :
        TrackChunkIter) =
      ⟨((ts₀.map (fun t => chunkBytes t.flatten)).flatten ++
          (chunkBytes tl.flatten).dropLast), ts₀.length + 1⟩ from by rw [hlen]]
    rw [hcoll]

/-- Witness for C2: the concrete shape `sampleShapeB` is well-formed and
its buffer with the final byte removed fails with a `Fatal` or `Invalid`
error. -/
theorem C2_truncation_fails_witness :
    sampleShapeB.WF ∧
    (∃ e, Smf.read (sampleShapeB.tracks.length + 1) sampleShapeB.evFuel
        sampleShapeB.bytes.dropLast = .err e ∧
      (e.kind = .Fatal ∨ e.kind = .Invalid)) :=
  ⟨by simp only [SmfShape.WF]; decide,
   C2_truncation_fails sampleShapeB (by simp only [SmfShape.WF]; decide)⟩

end Midi
